import Mathlib

/-!
Verification development for the repository's single source file
`src/github_analyzer.py` (a GitHub repository-metadata collector).

Shallow embedding notes:

* The remote GraphQL endpoint is modelled as a pure function
  `fetch : Nat → Option Nat → Nat → FetchResult` mapping the 1-based request
  number (the script's `page_count`), the pagination cursor passed in the
  query, and the requested page size (`repos_to_fetch`) to the response the
  `try:` block observes.  `FetchResult.exc` models `make_graphql_request`
  (or anything in the `try:` body outside the per-record handler) raising.
* ISO-8601 timestamps and `datetime.now()` are modelled by day numbers
  (`Int`); `createdAtDays = none` models a string that
  `datetime.fromisoformat` rejects, which makes `process_repository_data`
  raise for that record.
* Python's `round(x, 2)` on the issue percentage is modelled exactly by the
  integer number of hundredths (`roundHalfEvenDiv`, round-half-to-even, the
  behaviour of Python's `round`); the rational value it denotes is recovered
  as `(· : ℚ) / 100` in the theorems.
* File I/O is modelled by an association list of file names to written CSV
  contents; a write either fully succeeds or fully fails (raises), selected
  by the `primaryOk` / `backupOk` environment flags.
* The interactive `input("... (c/r)")` answer is the `continueChoice`
  parameter of `mainRun`; the *loaded* previously persisted set is the
  `existing` parameter.  The script never calls `sys.exit`, and `main`
  catches every exception, so the process exit code is always 0.
* The `while` loop of `fetch_top_repositories` is embedded as a step
  function `fetchStep` iterated on explicit fuel (`fetchLoop`); `none`
  means the fuel bound was hit, i.e. the run performed more iterations than
  the supplied fuel.
-/

/-- One repository node as returned inside `search.edges` by the GraphQL
query (fields of `create_graphql_query_paginated`).  Timestamps are
parsed-day numbers; `none` models a malformed timestamp string. -/
structure RawRepository where
  name : String
  owner : String
  url : String
  createdAtDays : Option Int
  updatedAtDays : Option Int
  stargazerCount : Nat
  primaryLanguage : Option String
  mergedPullRequests : Nat
  releases : Nat
  issues : Nat
  closedIssues : Nat
deriving DecidableEq, Repr

/-- The dict built by `process_repository_data`, one per repository.
`created_at` / `updated_at` hold the raw (parsed) timestamps; the
`closed_issues_percentage` float produced by `round(x, 2)` is stored
exactly as its value in hundredths. -/
structure DerivedRecord where
  name : String
  owner : String
  url : String
  stars : Nat
  created_at : Int
  updated_at : Int
  age_days : Int
  merged_pull_requests : Nat
  total_releases : Nat
  days_since_last_update : Int
  primary_language : String
  total_issues : Nat
  closed_issues : Nat
  closed_issues_percentage : Int
deriving DecidableEq, Repr

/-- Integer round-half-to-even of the fraction `a / b` (for `b > 0`):
the rounding Python's builtin `round` applies. -/
def roundHalfEvenDiv (a b : Int) : Int :=
  let q := a / b
  let r := a % b
  if 2 * r < b then q
  else if b < 2 * r then q + 1
  else if q % 2 = 0 then q else q + 1

/-- Python's `round(x, 2)` as an exact operation on rationals:
round `x * 100` half-to-even, then divide by 100 again. -/
def pyRoundQ (x : ℚ) : Int :=
  let f := ⌊x⌋
  let r := x - (f : ℚ)
  if r < 1 / 2 then f
  else if 1 / 2 < r then f + 1
  else if f % 2 = 0 then f else f + 1

/-- `round(x, 2)` on rationals (value of the Python expression). -/
def round2 (x : ℚ) : ℚ := (pyRoundQ (x * 100) : ℚ) / 100

/-- `process_repository_data` (lines 103-142): turns one raw node into the
metric dict.  A malformed timestamp makes the Python code raise inside the
per-record `try:`; that is the `none` result here.  The percentage is
`round((closed_issues / total_issues * 100), 2)` when `total_issues > 0`
and `round(0, 2) = 0` otherwise, stored in hundredths. -/
def process_repository_data (now : Int) (repo : RawRepository) : Option DerivedRecord :=
  match repo.createdAtDays, repo.updatedAtDays with
  | some created, some updated =>
      some
        { name := repo.name
          owner := repo.owner
          url := repo.url
          stars := repo.stargazerCount
          created_at := created
          updated_at := updated
          age_days := now - created
          merged_pull_requests := repo.mergedPullRequests
          total_releases := repo.releases
          days_since_last_update := now - updated
          primary_language := repo.primaryLanguage.getD ("Unknown")
          total_issues := repo.issues
          closed_issues := repo.closedIssues
          closed_issues_percentage :=
            if 0 < repo.issues then
              roundHalfEvenDiv (10000 * (repo.closedIssues : Int)) (repo.issues : Int)
            else 0 }
  | _, _ => none

/-- A record whose timestamps both parse (so `process_repository_data`
succeeds on it). -/
def validRecord (r : RawRepository) : Bool :=
  r.createdAtDays.isSome && r.updatedAtDays.isSome

/-- Every record of the list has parseable timestamps. -/
def AllValid (src : List RawRepository) : Prop :=
  ∀ r ∈ src, validRecord r = true

/-- `pageInfo` of the GraphQL `search` payload. -/
structure PageInfo where
  endCursor : Option Nat
  hasNextPage : Bool
deriving DecidableEq, Repr

/-- The `search` object of a response that has one. -/
structure SearchPayload where
  edges : List RawRepository
  pageInfo : PageInfo
deriving DecidableEq, Repr

/-- What one round of the `try:` block observes.  `exc` = the request (or
response decoding) raised.  `ok hasErrors data_` = a JSON dict was
returned: `hasErrors` is `'errors' in result`; `data_ = none` is
`'data' not in result`; `data_ = some none` is a `data` without `search`;
`data_ = some (some p)` is a full `search` payload. -/
inductive FetchResult where
  | exc : FetchResult
  | ok (hasErrors : Bool) (data_ : Option (Option SearchPayload)) : FetchResult
deriving DecidableEq, Repr

/-- The loop-carried state of `fetch_top_repositories`. -/
structure LoopState where
  repositories : List DerivedRecord
  cursor : Option Nat
  page_count : Nat
deriving DecidableEq, Repr

/-- The inner `for edge in edges:` loop (lines 191-201): process each
record, stop appending once `len(repositories) >= limit`, and skip records
whose processing raises. -/
def processEdges (now : Int) (limit : Nat) : List RawRepository → List DerivedRecord → List DerivedRecord
  | [], acc => acc
  | e :: es, acc =>
      if limit ≤ acc.length then acc
      else
        match process_repository_data now e with
        | some d => processEdges now limit es (acc ++ [d])
        | none => processEdges now limit es acc

/-- Result of one iteration of the `while` loop: either the loop ends
(returning the accumulated records and the final `page_count`) or it
continues with a new state. -/
inductive StepResult where
  | halt (repositories : List DerivedRecord) (page_count : Nat) : StepResult
  | next (s : LoopState) : StepResult
deriving DecidableEq, Repr

/-- One iteration of the `while len(repositories) < limit:` loop of
`fetch_top_repositories` (lines 157-228), including the loop guard. -/
def fetchStep (now : Int) (fetch : Nat → Option Nat → Nat → FetchResult)
    (limit : Nat) (s : LoopState) : StepResult :=
  if s.repositories.length < limit then
    let page_count := s.page_count + 1
    let remaining := limit - s.repositories.length
    let repos_to_fetch := min 100 remaining
    match fetch page_count s.cursor repos_to_fetch with
    | FetchResult.exc =>
        -- `except:` at lines 220-228: continue if a cursor exists, else break
        if s.cursor.isSome then StepResult.next ⟨s.repositories, s.cursor, page_count⟩
        else StepResult.halt s.repositories page_count
    | FetchResult.ok hasErrors data_ =>
        -- lines 172-176: `if 'errors' in result:` ... `if 'data' not in result: break`
        if hasErrors && data_.isNone then StepResult.halt s.repositories page_count
        else
          match data_ with
          | none => StepResult.halt s.repositories page_count
          | some none => StepResult.halt s.repositories page_count
          | some (some search) =>
              if search.edges.isEmpty then StepResult.halt s.repositories page_count
              else
                let repositories := processEdges now limit search.edges s.repositories
                if !search.pageInfo.hasNextPage || limit ≤ repositories.length then
                  StepResult.halt repositories page_count
                else
                  StepResult.next ⟨repositories, search.pageInfo.endCursor, page_count⟩
  else StepResult.halt s.repositories s.page_count

/-- Iterate `fetchStep` on explicit fuel; `none` = the run needs more
iterations than the fuel allows. -/
def fetchLoop (now : Int) (fetch : Nat → Option Nat → Nat → FetchResult)
    (limit : Nat) : Nat → LoopState → Option (List DerivedRecord × Nat)
  | 0, _ => none
  | fuel + 1, s =>
      match fetchStep now fetch limit s with
      | StepResult.halt repos pc => some (repos, pc)
      | StepResult.next s' => fetchLoop now fetch limit fuel s'

/-- `fetch_top_repositories(limit)` (lines 144-234): run the collection
loop from the empty state; the result pairs the collected records with the
final `page_count` (= the number of fetch calls made). -/
def fetch_top_repositories (now : Int) (fetch : Nat → Option Nat → Nat → FetchResult)
    (limit : Nat) (fuel : Nat) : Option (List DerivedRecord × Nat) :=
  fetchLoop now fetch limit fuel ⟨[], none, 0⟩

/-- An ideal well-behaved source backed by a fixed record stream: the
cursor is the position already consumed, a page is the next `first`
records, and `hasNextPage` reports whether records remain after it. -/
def idealFetch (src : List RawRepository) : Nat → Option Nat → Nat → FetchResult :=
  fun _ cursor first =>
    let pos := cursor.getD 0
    let page := (src.drop pos).take first
    FetchResult.ok false
      (some (some ⟨page, ⟨some (pos + page.length), decide (pos + page.length < src.length)⟩⟩))

/-- A fetch environment in which no request raises and every record of
every delivered page has parseable timestamps. -/
def GoodFetch (fetch : Nat → Option Nat → Nat → FetchResult) : Prop :=
  ∀ i c f, fetch i c f ≠ FetchResult.exc ∧
    ∀ he d sp, fetch i c f = FetchResult.ok he d → d = some (some sp) →
      ∀ r ∈ sp.edges, validRecord r = true

/-- States the collection loop can reach from its initial state. -/
inductive Reachable (now : Int) (fetch : Nat → Option Nat → Nat → FetchResult)
    (limit : Nat) : LoopState → Prop
  | init : Reachable now fetch limit ⟨[], none, 0⟩
  | step {s s' : LoopState} : Reachable now fetch limit s →
      fetchStep now fetch limit s = StepResult.next s' → Reachable now fetch limit s'

/-- The fixed CSV column order written by `save_to_csv_with_backup`. -/
def fieldnames : List String :=
  ["name", "owner", "url", "stars", "created_at", "updated_at",
   "age_days", "merged_pull_requests", "total_releases",
   "days_since_last_update", "primary_language", "total_issues",
   "closed_issues", "closed_issues_percentage"]

/-- A written CSV file: the header row plus one row per record. -/
structure CsvFile where
  header : List String
  rows : List DerivedRecord
deriving DecidableEq, Repr

/-- The durable store: newest write first, keyed by file name. -/
abbrev FileSys := List (String × CsvFile)

/-- A successful `open(..., 'w')` + write: replaces the file's content. -/
def writeFile (name : String) (content : CsvFile) (fs : FileSys) : FileSys :=
  (name, content) :: fs

/-- Current content of a file (newest write wins). -/
def readFile : FileSys → String → Option CsvFile
  | [], _ => none
  | (m, c) :: fs, n => if m = n then some c else readFile fs n

/-- Console messages `save_to_csv_with_backup` prints, by branch. -/
inductive SaveMsg where
  | savedPrimary (fn : String) : SaveMsg
  | backupCreated (fn : String) : SaveMsg
  | errSave : SaveMsg
  | savedBackupOnly (fn : String) : SaveMsg
  | errCritical : SaveMsg
deriving DecidableEq, Repr

/-- `filename.replace('.csv', f'_backup_{timestamp}.csv')` for the
file names the script uses (they end in `.csv` and contain `.csv` once). -/
def backupFilename (filename ts : String) : String :=
  filename.dropRight 4 ++ "_backup_" ++ ts ++ ".csv"

/-- `save_to_csv_with_backup` (lines 286-330).  `primaryOk` / `backupOk`
say whether writing the respective file raises.  Success path: write the
primary file, then the backup.  If anything raises, the `except:` block
tries to write only the backup; if that also raises, only an error is
reported.  (A failed `open(..., 'w')` is modelled as leaving the file
untouched.) -/
def save_to_csv_with_backup (primaryOk backupOk : Bool) (ts : String)
    (filename : String) (repositories : List DerivedRecord) (fs : FileSys) :
    FileSys × List SaveMsg :=
  let backup_filename := backupFilename filename ts
  let content : CsvFile := ⟨fieldnames, repositories⟩
  if primaryOk then
    let fs1 := writeFile filename content fs
    if backupOk then
      (writeFile backup_filename content fs1,
       [SaveMsg.savedPrimary filename, SaveMsg.backupCreated backup_filename])
    else
      -- the backup write raised after the primary succeeded; the except
      -- block retries the backup, which fails again
      (fs1, [SaveMsg.savedPrimary filename, SaveMsg.errSave, SaveMsg.errCritical])
  else
    if backupOk then
      (writeFile backup_filename content fs,
       [SaveMsg.errSave, SaveMsg.savedBackupOnly backup_filename])
    else (fs, [SaveMsg.errSave, SaveMsg.errCritical])

/-- The urls of a record list, in order. -/
def urlsOf (l : List DerivedRecord) : List String := l.map (fun r => r.url)

/-- No two records of the list share a url. -/
def NoDupUrls (l : List DerivedRecord) : Prop := (urlsOf l).Nodup

/-- The merge step of `main` (lines 498-506): with a non-empty baseline,
keep the baseline and append only the fetched records whose url is not in
the baseline's url set; with an empty baseline, take the fetched list as
is. -/
def mergeFetched (repositories remaining_repos : List DerivedRecord) : List DerivedRecord :=
  if repositories.isEmpty then remaining_repos
  else
    repositories ++
      remaining_repos.filter (fun r => decide (r.url ∉ urlsOf repositories))

/-- The primary output file name of the script. -/
def mainCsvFilename : String := "data/repositories_data.csv"

/-- `save_checkpoint(repositories, "final")`'s file name. -/
def checkpointFilename (repositories : List DerivedRecord) : String :=
  "data/checkpoint_final_" ++ toString repositories.length ++ "_repos.csv"

/-- The observable outcome of one `main()` run.  `fetchedCount` is
`len(remaining_repos)` when `fetch_top_repositories` was called, `none`
when it was not.  The script installs no non-zero exit path (`main`
catches every exception and `sys.exit` is never called), so `exitCode` is
always 0. -/
structure MainOutcome where
  repositories : List DerivedRecord
  fetchedCount : Option Nat
  fs : FileSys
  exitCode : Nat
  earlyComplete : Bool
deriving DecidableEq, Repr

/-- `main()` (lines 457-534) up to the persistence steps.  `existing` is
what `load_existing_data` returned; `continueChoice` is the `'c'` answer
to the resume prompt.  Statistics printing happens after all writes and
changes none of the modelled observables (on an empty record set it in
fact raises, which `main` swallows), so it is not tracked here.  `none`
propagates fuel exhaustion of the fetch loop. -/
def mainRun (existing : List DerivedRecord) (continueChoice : Bool) (now : Int)
    (fetch : Nat → Option Nat → Nat → FetchResult) (primaryOk backupOk : Bool)
    (ts : String) (fuel : Nat) (fs0 : FileSys) : Option MainOutcome :=
  let repositories0 : List DerivedRecord :=
    if existing.isEmpty then [] else if continueChoice then existing else []
  if continueChoice && !existing.isEmpty && decide (1000 ≤ existing.length) then
    -- "Coleta já completa!": print stats and return before any write
    some ⟨existing, none, fs0, 0, true⟩
  else
    let target : Nat := if repositories0.isEmpty then 100 else 1000
    if repositories0.length < target then
      (fetch_top_repositories now fetch target fuel).map (fun out =>
        let repositories := mergeFetched repositories0 out.1
        let fs1 := (save_to_csv_with_backup primaryOk backupOk ts mainCsvFilename repositories fs0).1
        let fs2 :=
          if 200 ≤ repositories.length then
            (save_to_csv_with_backup primaryOk backupOk ts
              (checkpointFilename repositories) repositories fs1).1
          else fs1
        ⟨repositories, some out.1.length, fs2, 0, false⟩)
    else
      some ⟨repositories0, none,
        (save_to_csv_with_backup primaryOk backupOk ts mainCsvFilename repositories0 fs0).1,
        0, false⟩

/-- Python's stable `sorted` on integer lists. -/
def sortedInt (xs : List Int) : List Int := xs.insertionSort (· ≤ ·)

/-- Python's stable `sorted` on `Nat` lists. -/
def sortedNat (xs : List Nat) : List Nat := xs.insertionSort (· ≤ ·)

/-- The median as `print_detailed_stats` computes it for every metric:
`sorted(xs)[len(xs) // 2]` (out-of-range defaults to 0; the script only
evaluates it on non-empty lists). -/
def reportMedianInt (xs : List Int) : Int := (sortedInt xs).getD (xs.length / 2) 0

/-- `sorted(stars)[len // 2]` for the star counts. -/
def reportMedianNat (xs : List Nat) : Nat := (sortedNat xs).getD (xs.length / 2) 0

/-- Modelled from the spec's words for C7 only: the claimed median takes,
for even lengths, the LOWER of the two central elements of the sorted
sequence, i.e. the element at index `(n - 1) / 2`. -/
def specLowerMedian (xs : List Int) : Int :=
  (sortedInt xs).getD ((xs.length - 1) / 2) 0

/-- Python's `max` on a non-empty list (0 on `[]`, where Python raises). -/
def pyMaxInt : List Int → Int
  | [] => 0
  | h :: t => t.foldl max h

/-- Python's `min` on a non-empty list (0 on `[]`, where Python raises). -/
def pyMinInt : List Int → Int
  | [] => 0
  | h :: t => t.foldl min h

/-- Render `t` tenths as a decimal string with one fractional digit:
models Python's `f'{x:.1f}'` (field padding is not reproduced). -/
def fmt1Tenths (t : Int) : String :=
  let sign := if t < 0 then "-" else ""
  let m := t.natAbs
  sign ++ toString (m / 10) ++ "." ++ toString (m % 10)

/-- `f'{a / b:.1f}'` for integer `a`, `b`: one-decimal rendering of the
fraction. -/
def fmt1Frac (a b : Int) : String := fmt1Tenths (roundHalfEvenDiv (10 * a) b)

/-- Build the `languages` dict (insertion-ordered, Python 3.7+): count the
`primary_language` of each record. -/
def bumpLang (l : List (String × Nat)) (k : String) : List (String × Nat) :=
  match l with
  | [] => [(k, 1)]
  | (a, n) :: t => if a = k then (a, n + 1) :: t else (a, n) :: bumpLang t k

/-- The `languages` frequency table of `print_detailed_stats`. -/
def countLang (repositories : List DerivedRecord) : List (String × Nat) :=
  repositories.foldl (fun acc r => bumpLang acc r.primary_language) []

/-- The separator row `'=' * 60`. -/
def eqLine : String := String.mk (List.replicate 60 '=')

/-- `print_detailed_stats` (lines 371-450), as the list of printed lines
(one list entry per `print` call; `\n` prefixes kept; numeric field
padding and the thousands separator of `{:,}` are not reproduced).  On an
empty record set the Python code raises (`sorted([])[0]`), hence `none`.
The issue-percentage metric list holds hundredths, ordered exactly as the
Python floats it models. -/
def print_detailed_stats (repositories : List DerivedRecord) : Option (List String) :=
  if repositories.isEmpty then none
  else
    let total_repos := repositories.length
    let ages := repositories.map (fun r => r.age_days)
    let median_age := reportMedianInt ages
    let prs := repositories.map (fun r => (r.merged_pull_requests : Int))
    let median_prs := reportMedianInt prs
    let releases := repositories.map (fun r => (r.total_releases : Int))
    let median_releases := reportMedianInt releases
    let updates := repositories.map (fun r => r.days_since_last_update)
    let median_update := reportMedianInt updates
    let languages := countLang repositories
    let top10 := (languages.insertionSort (fun a b => b.2 ≤ a.2)).take 10
    let issuePcts := repositories.map (fun r => r.closed_issues_percentage)
    let median_pct := reportMedianInt issuePcts
    let stars := repositories.map (fun r => r.stars)
    let total_stars := stars.foldl (· + ·) 0
    some
      ([ "\n" ++ eqLine,
         "📊 RELATÓRIO DETALHADO - " ++ toString total_repos ++ " REPOSITÓRIOS",
         eqLine,
         "\n🕐 RQ01 - IDADE DOS REPOSITÓRIOS:",
         "   Mediana: " ++ toString median_age ++ " dias (" ++ fmt1Frac median_age 365 ++ " anos)",
         "   Mais antigo: " ++ toString (pyMaxInt ages) ++ " dias (" ++ fmt1Frac (pyMaxInt ages) 365 ++ " anos)",
         "   Mais novo: " ++ toString (pyMinInt ages) ++ " dias (" ++ fmt1Frac (pyMinInt ages) 365 ++ " anos)",
         "\n🔄 RQ02 - PULL REQUESTS ACEITAS:",
         "   Mediana: " ++ toString median_prs,
         "   Máximo: " ++ toString (pyMaxInt prs),
         "   Repositórios com 0 PRs: " ++ toString (prs.countP (fun x => decide (x = 0))),
         "\n🚀 RQ03 - TOTAL DE RELEASES:",
         "   Mediana: " ++ toString median_releases,
         "   Máximo: " ++ toString (pyMaxInt releases),
         "   Repositórios sem releases: " ++ toString (releases.countP (fun x => decide (x = 0))),
         "\n🔄 RQ04 - DIAS DESDE ÚLTIMA ATUALIZAÇÃO:",
         "   Mediana: " ++ toString median_update ++ " dias",
         "   Mais desatualizado: " ++ toString (pyMaxInt updates) ++ " dias",
         "   Atualizados hoje: " ++ toString (updates.countP (fun x => decide (x = 0))),
         "\n💻 RQ05 - LINGUAGENS DE PROGRAMAÇÃO:",
         "   Total de linguagens diferentes: " ++ toString languages.length,
         "   TOP 10 linguagens:" ]
       ++ top10.enum.map (fun p =>
            "     " ++ toString (p.1 + 1) ++ ". " ++ p.2.1 ++ " " ++ toString p.2.2 ++
              " repos (" ++ fmt1Frac (100 * (p.2.2 : Int)) (total_repos : Int) ++ "%)")
       ++ [ "\n🐛 RQ06 - PERCENTUAL DE ISSUES FECHADAS:",
            "   Mediana: " ++ fmt1Tenths (roundHalfEvenDiv median_pct 10) ++ "%",
            "   Repositórios com 100% issues fechadas: " ++
              toString (issuePcts.countP (fun x => decide (x = 10000))),
            "   Repositórios sem issues: " ++
              toString (repositories.countP (fun r => decide (r.total_issues = 0))),
            "\n⭐ ESTATÍSTICAS GERAIS:",
            "   Total de estrelas: " ++ toString total_stars,
            "   Estrelas por repositório (mediana): " ++ toString (reportMedianNat stars),
            "\n" ++ eqLine ])

/-- A well-formed raw record with the given url (both timestamps parse). -/
def rawRec (u : String) : RawRepository :=
  { name := "repo", owner := "owner", url := u,
    createdAtDays := some 0, updatedAtDays := some 0,
    stargazerCount := 1, primaryLanguage := some ("Python"),
    mergedPullRequests := 0, releases := 0, issues := 0, closedIssues := 0 }

/-- A raw record whose creation timestamp does not parse:
`process_repository_data` raises on it. -/
def badRaw : RawRepository :=
  { rawRec ("bad") with createdAtDays := none }

/-- An ideal source stream of `n` distinct well-formed records. -/
def mkSrc (n : Nat) : List RawRepository :=
  (List.range n).map (fun i => rawRec ("https://r/" ++ toString i))

/-- A fetch environment whose every request raises (first-page transport
failure). -/
def excFetch : Nat → Option Nat → Nat → FetchResult := fun _ _ _ => FetchResult.exc

/-- A page response helper. -/
def pageOf (edges : List RawRepository) (hasNext : Bool) (endCur : Option Nat) : FetchResult :=
  FetchResult.ok false (some (some ⟨edges, ⟨endCur, hasNext⟩⟩))

/-- The C5 scenario source: pages of size 2, 2, 1, then an empty page,
each reporting that further pages exist. -/
def scenFetch : Nat → Option Nat → Nat → FetchResult := fun i _ _ =>
  if i = 1 then pageOf [rawRec ("https://s/1"), rawRec ("https://s/2")] true (some 11)
  else if i = 2 then pageOf [rawRec ("https://s/3"), rawRec ("https://s/4")] true (some 12)
  else if i = 3 then pageOf [rawRec ("https://s/5")] true (some 13)
  else pageOf [] true (some 14)

/-- A source for C4's later-page behaviour: call 1 delivers one record and
cursor 7; call 2 raises; call 3 delivers its page only if it is asked with
the preserved cursor 7 (otherwise an invalid body, which would end the
loop early with 1 record). -/
def laterExcFetch : Nat → Option Nat → Nat → FetchResult := fun i cursor _ =>
  if i = 1 then pageOf [rawRec ("https://l/1")] true (some 7)
  else if i = 2 then FetchResult.exc
  else if cursor = some 7 then pageOf [rawRec ("https://l/2")] false (some 8)
  else FetchResult.ok false none

/-- A source that forever returns one-record pages whose record fails
derivation (malformed timestamp), always claiming more pages exist. -/
def allBadFetch : Nat → Option Nat → Nat → FetchResult := fun _ _ _ =>
  pageOf [badRaw] true (some 1)

/-- A concrete derived record with the given url and age (used as baseline
rows and statistics fixtures). -/
def mkDerived (age : Int) (u : String) : DerivedRecord :=
  { name := "n", owner := "o", url := u, stars := 10, created_at := 0,
    updated_at := 0, age_days := age, merged_pull_requests := 1,
    total_releases := 1, days_since_last_update := 2,
    primary_language := "Python", total_issues := 4, closed_issues := 2,
    closed_issues_percentage := 5000 }

/-- Five records whose ages have the single most-frequent value 3
(ages 1, 3, 3, 4, 5). -/
def uniqueModeRepos : List DerivedRecord :=
  [mkDerived 1 ("u1"), mkDerived 3 ("u2"), mkDerived 3 ("u3"),
   mkDerived 4 ("u4"), mkDerived 5 ("u5")]

/-- Five records identical to `uniqueModeRepos` except that the age
multiset is 1, 1, 3, 3, 5: the most frequent age value is tied, while
median (3), maximum (5) and minimum (1) are unchanged. -/
def tiedModeRepos : List DerivedRecord :=
  [mkDerived 1 ("u1"), mkDerived 1 ("u2"), mkDerived 3 ("u3"),
   mkDerived 3 ("u4"), mkDerived 5 ("u5")]

/-- Modelled from the spec's words for C8 only: a single most-frequent
value exists in the list (a strict unique mode). -/
def specHasUniqueMode (xs : List Int) : Bool :=
  xs.any (fun m => xs.all (fun y => decide (y = m) || decide (xs.count y < xs.count m)))

/-- Substring test on character lists. -/
def isInfixChars (pat : List Char) : List Char → Bool
  | [] => pat.isEmpty
  | c :: t => pat.isPrefixOf (c :: t) || isInfixChars pat t

/-- `pat` occurs as a substring of `s`. -/
def strContains (s pat : String) : Bool := isInfixChars pat.toList s.toList

/-- The phrase claim C8 says the report prints on a tie. -/
def modeMarker : String := "no unique mode"

/-- A raw record with 10 issues, all of them closed (spec scenario 7). -/
def pctRaw : RawRepository :=
  { rawRec ("pct") with issues := 10, closedIssues := 10 }

/-- The derived record `process_repository_data 0 pctRaw` produces:
percentage 100.00, stored as 10000 hundredths. -/
def pctDerived : DerivedRecord :=
  { name := "repo", owner := "owner", url := "pct", stars := 1, created_at := 0,
    updated_at := 0, age_days := 0, merged_pull_requests := 0, total_releases := 0,
    days_since_last_update := 0, primary_language := "Python", total_issues := 10,
    closed_issues := 10, closed_issues_percentage := 10000 }

instance (src : List RawRepository) : Decidable (AllValid src) :=
  inferInstanceAs (Decidable (∀ r ∈ src, validRecord r = true))

instance (l : List DerivedRecord) : Decidable (NoDupUrls l) :=
  inferInstanceAs (Decidable (urlsOf l).Nodup)

theorem process_isSome_of_valid (now : Int) (r : RawRepository)
    (h : validRecord r = true) : (process_repository_data now r).isSome = true := by
  unfold validRecord at h
  unfold process_repository_data
  cases hc : r.createdAtDays with
  | none => simp [hc] at h
  | some c =>
      cases hu : r.updatedAtDays with
      | none => simp [hc, hu] at h
      | some u => simp

theorem processEdges_length_ge (now : Int) (limit : Nat) :
    ∀ (es : List RawRepository) (acc : List DerivedRecord),
      acc.length ≤ (processEdges now limit es acc).length := by
  intro es
  induction es with
  | nil => intro acc; simp [processEdges]
  | cons e es ih =>
      intro acc
      simp only [processEdges]
      split
      · exact le_rfl
      · cases h : process_repository_data now e with
        | some d =>
            calc acc.length ≤ (acc ++ [d]).length := by simp
              _ ≤ _ := ih (acc ++ [d])
        | none => exact ih acc

theorem processEdges_length_le (now : Int) (limit : Nat) :
    ∀ (es : List RawRepository) (acc : List DerivedRecord),
      acc.length ≤ limit → (processEdges now limit es acc).length ≤ limit := by
  intro es
  induction es with
  | nil => intro acc h; simpa [processEdges] using h
  | cons e es ih =>
      intro acc h
      simp only [processEdges]
      split
      · exact h
      · rename_i hlt
        cases hp : process_repository_data now e with
        | some d => exact ih (acc ++ [d]) (by simp; omega)
        | none => exact ih acc h

theorem processEdges_length_valid (now : Int) (limit : Nat) :
    ∀ (es : List RawRepository) (acc : List DerivedRecord),
      (∀ r ∈ es, validRecord r = true) → acc.length + es.length ≤ limit →
      (processEdges now limit es acc).length = acc.length + es.length := by
  intro es
  induction es with
  | nil => intro acc _ _; simp [processEdges]
  | cons e es ih =>
      intro acc hv hle
      simp only [processEdges]
      split
      · rename_i hge
        simp at hle
        omega
      · have hs : (process_repository_data now e).isSome = true :=
          process_isSome_of_valid now e (hv e (by simp))
        cases hp : process_repository_data now e with
        | none => rw [hp] at hs; simp at hs
        | some d =>
            have := ih (acc ++ [d]) (fun r hr => hv r (by simp [hr]))
              (by simp at hle ⊢; omega)
            rw [this]
            simp
            omega

theorem processEdges_length_lt (now : Int) (limit : Nat)
    (es : List RawRepository) (acc : List DerivedRecord)
    (hne : es ≠ []) (hv : ∀ r ∈ es, validRecord r = true)
    (hlt : acc.length < limit) :
    acc.length < (processEdges now limit es acc).length := by
  cases es with
  | nil => exact absurd rfl hne
  | cons e es =>
      simp only [processEdges]
      split
      · omega
      · have hs : (process_repository_data now e).isSome = true :=
          process_isSome_of_valid now e (hv e (by simp))
        cases hp : process_repository_data now e with
        | none => rw [hp] at hs; simp at hs
        | some d =>
            dsimp only
            have h1 : (acc ++ [d]).length ≤ (processEdges now limit es (acc ++ [d])).length :=
              processEdges_length_ge now limit es (acc ++ [d])
            simp at h1
            omega

theorem fetchStep_next_of_good (now : Int) (fetch : Nat → Option Nat → Nat → FetchResult)
    (limit : Nat) (hg : GoodFetch fetch) (s s' : LoopState)
    (hstep : fetchStep now fetch limit s = StepResult.next s') :
    s.repositories.length < s'.repositories.length ∧ s'.repositories.length ≤ limit := by
  simp only [fetchStep] at hstep
  split at hstep
  · rename_i hlt
    cases hfetch : fetch (s.page_count + 1) s.cursor (min 100 (limit - s.repositories.length)) with
    | exc => exact absurd hfetch (hg _ _ _).1
    | ok he d =>
        rw [hfetch] at hstep
        cases d with
        | none =>
            dsimp only at hstep
            split at hstep <;> simp at hstep
        | some dd =>
            cases dd with
            | none =>
                dsimp only at hstep
                split at hstep <;> simp at hstep
            | some search =>
                dsimp only at hstep
                split at hstep
                · rename_i habs
                  simp at habs
                · split at hstep
                  · exact absurd hstep (by simp)
                  · rename_i hemp
                    split at hstep
                    · exact absurd hstep (by simp)
                    · cases hstep
                      have hv : ∀ r ∈ search.edges, validRecord r = true :=
                        (hg _ _ _).2 he (some (some search)) search hfetch rfl
                      have hne : search.edges ≠ [] := by
                        intro hc
                        rw [hc] at hemp
                        simp at hemp
                      exact ⟨processEdges_length_lt now limit search.edges s.repositories hne hv hlt,
                        processEdges_length_le now limit search.edges s.repositories (le_of_lt hlt)⟩
  · exact absurd hstep (by simp)

theorem fetchStep_next_le (now : Int) (fetch : Nat → Option Nat → Nat → FetchResult)
    (limit : Nat) (s s' : LoopState)
    (hstep : fetchStep now fetch limit s = StepResult.next s')
    (hs : s.repositories.length ≤ limit) : s'.repositories.length ≤ limit := by
  simp only [fetchStep] at hstep
  split at hstep
  · rename_i hlt
    cases hfetch : fetch (s.page_count + 1) s.cursor (min 100 (limit - s.repositories.length)) with
    | exc =>
        rw [hfetch] at hstep
        dsimp only at hstep
        split at hstep
        · cases hstep
          exact hs
        · exact absurd hstep (by simp)
    | ok he d =>
        rw [hfetch] at hstep
        cases d with
        | none =>
            dsimp only at hstep
            split at hstep <;> simp at hstep
        | some dd =>
            cases dd with
            | none =>
                dsimp only at hstep
                split at hstep <;> simp at hstep
            | some search =>
                dsimp only at hstep
                split at hstep
                · rename_i habs
                  simp at habs
                · split at hstep
                  · exact absurd hstep (by simp)
                  · split at hstep
                    · exact absurd hstep (by simp)
                    · cases hstep
                      exact processEdges_length_le now limit search.edges s.repositories (le_of_lt hlt)
  · exact absurd hstep (by simp)

theorem reachable_length_le (now : Int) (fetch : Nat → Option Nat → Nat → FetchResult)
    (limit : Nat) (s : LoopState) (h : Reachable now fetch limit s) :
    s.repositories.length ≤ limit := by
  induction h with
  | init => simp
  | step _ hstep ih => exact fetchStep_next_le now fetch limit _ _ hstep ih

theorem fetchLoop_isSome_of_good (now : Int) (fetch : Nat → Option Nat → Nat → FetchResult)
    (limit : Nat) (hg : GoodFetch fetch) :
    ∀ (fuel : Nat) (s : LoopState), s.repositories.length ≤ limit →
      limit + 1 ≤ s.repositories.length + fuel →
      (fetchLoop now fetch limit fuel s).isSome = true := by
  intro fuel
  induction fuel with
  | zero => intro s h1 h2; omega
  | succ m ih =>
      intro s h1 h2
      rw [fetchLoop]
      cases hstep : fetchStep now fetch limit s with
      | halt r p => simp
      | next s' =>
          have hprog := fetchStep_next_of_good now fetch limit hg s s' hstep
          exact ih s' hprog.2 (by omega)

theorem goodFetch_idealFetch (src : List RawRepository) (hv : AllValid src) :
    GoodFetch (idealFetch src) := by
  intro i c f
  constructor
  · simp [idealFetch]
  · intro he d sp hok hsp r hr
    simp only [idealFetch] at hok
    cases hok
    cases hsp
    exact hv r (List.drop_subset _ _ (List.take_subset _ _ hr))

theorem idealRun_length (now : Int) (src : List RawRepository) (limit : Nat)
    (hv : AllValid src) :
    ∀ (fuel n : Nat) (recs : List DerivedRecord) (c : Option Nat) (k : Nat),
      recs.length = n → c.getD 0 = n → n ≤ src.length → n ≤ limit →
      limit + 1 ≤ n + fuel →
      (fetchLoop now (idealFetch src) limit fuel ⟨recs, c, k⟩).map (fun r => r.1.length)
        = some (min limit src.length) := by
  intro fuel
  induction fuel with
  | zero => intro n recs c k h1 h2 h3 h4 h5; omega
  | succ m ih =>
      intro n recs c k h1 h2 h3 h4 h5
      rw [fetchLoop]
      by_cases hg : n < limit
      · by_cases hend : src.length = n
        · -- the stream is exhausted: an empty page ends the loop
          have hemp : (src.drop n).take (min 100 (limit - n)) = [] := by
            have hdrop : src.drop n = [] := by
              apply List.eq_nil_of_length_eq_zero
              simp [List.length_drop]
              omega
            simp [hdrop]
          simp only [fetchStep, idealFetch, h1, h2, hemp]
          rw [if_pos hg]
          simp
          omega
        · -- at least one record remains and is appended
          have hlt : n < src.length := by omega
          set first := min 100 (limit - n) with hfirst
          set page := (src.drop n).take first with hpage
          have hpl : page.length = min first (src.length - n) := by
            simp [hpage, List.length_take, List.length_drop]
          have hfirstpos : 0 < first := by omega
          have hplpos : 0 < page.length := by omega
          have hple : page.length ≤ limit - n := by omega
          have hvpage : ∀ r ∈ page, validRecord r = true := fun r hr =>
            hv r (List.drop_subset _ _ (List.take_subset _ _ hr))
          have hproc : (processEdges now limit page recs).length = n + page.length := by
            rw [processEdges_length_valid now limit page recs hvpage (by omega), h1]
          have hne : page.isEmpty = false := by
            cases hp : page with
            | nil => rw [hp] at hplpos; simp at hplpos
            | cons a l => simp
          simp only [fetchStep, idealFetch, h1, h2, ← hfirst, ← hpage, hne]
          rw [if_pos hg]
          dsimp only
          by_cases hcond : (!decide (n + page.length < src.length) || decide (limit ≤ (processEdges now limit page recs).length)) = true
          · rw [if_pos hcond]
            simp at hcond
            simp
            omega
          · rw [if_neg hcond]
            simp at hcond
            simpa using ih (n + page.length) (processEdges now limit page recs)
              (some (n + page.length)) (k + 1) hproc rfl (by omega) (by omega) (by omega)
      · -- the guard fails: n = limit and the loop returns at once
        simp only [fetchStep, h1]
        rw [if_neg hg]
        simp
        omega

theorem fetch_top_ideal_length (now : Int) (src : List RawRepository) (limit : Nat)
    (hv : AllValid src) :
    (fetch_top_repositories now (idealFetch src) limit (limit + 1)).map (fun r => r.1.length)
      = some (min limit src.length) :=
  idealRun_length now src limit hv (limit + 1) 0 [] none 0 rfl rfl (Nat.zero_le _)
    (Nat.zero_le _) (by omega)

theorem fetch_top_ideal_exists (now : Int) (src : List RawRepository) (limit : Nat)
    (hv : AllValid src) :
    ∃ out, fetch_top_repositories now (idealFetch src) limit (limit + 1) = some out
      ∧ out.1.length = min limit src.length := by
  have h := fetch_top_ideal_length now src limit hv
  cases hres : fetch_top_repositories now (idealFetch src) limit (limit + 1) with
  | none => rw [hres] at h; simp at h
  | some out =>
      rw [hres] at h
      simp at h
      exact ⟨out, rfl, h⟩

theorem mkSrc_allValid (n : Nat) : AllValid (mkSrc n) := by
  intro r hr
  simp [mkSrc] at hr
  obtain ⟨i, _, rfl⟩ := hr
  rfl

theorem mainRun_resume_fetched (existing : List DerivedRecord) (src : List RawRepository)
    (now : Int) (primaryOk backupOk : Bool) (ts : String) (fs0 : FileSys)
    (hne : existing ≠ []) (hlt : existing.length < 1000) (hv : AllValid src) :
    (mainRun existing true now (idealFetch src) primaryOk backupOk ts 1001 fs0).map
        (fun o => o.fetchedCount)
      = some (some (min 1000 src.length)) := by
  obtain ⟨out, hout, hlen⟩ := fetch_top_ideal_exists now src 1000 hv
  have hne' : existing.isEmpty = false := by
    cases existing with
    | nil => exact absurd rfl hne
    | cons a l => simp
  have hd : decide (1000 ≤ existing.length) = false := by
    simp
    omega
  unfold mainRun
  rw [hne', hd]
  norm_num at hout
  simp [hne, hlt, hout, hlen]

theorem reportMedianInt_mem (xs : List Int) (h : xs ≠ []) : reportMedianInt xs ∈ xs := by
  unfold reportMedianInt sortedInt
  have hperm := List.perm_insertionSort (fun a b : Int => a ≤ b) xs
  have hpos : 0 < xs.length := List.length_pos.mpr h
  have hidx : xs.length / 2 < (xs.insertionSort (fun a b : Int => a ≤ b)).length := by
    rw [hperm.length_eq]
    omega
  rw [List.getD_eq_getElem?_getD, List.getElem?_eq_getElem hidx]
  simp only [Option.getD_some]
  exact hperm.mem_iff.mp (List.getElem_mem hidx)

theorem mergeFetched_eq (b f : List DerivedRecord) :
    mergeFetched b f = b ++ f.filter (fun r => decide (r.url ∉ urlsOf b)) := by
  unfold mergeFetched
  split
  · rename_i hb
    have hb' : b = [] := List.isEmpty_iff.mp hb
    subst hb'
    simp [urlsOf]
  · rfl

theorem mergeFetched_nodup (b f : List DerivedRecord)
    (hb : NoDupUrls b) (hf : NoDupUrls f) : NoDupUrls (mergeFetched b f) := by
  rw [mergeFetched_eq]
  unfold NoDupUrls urlsOf at *
  rw [List.map_append, List.nodup_append]
  refine ⟨hb, ?_, ?_⟩
  · exact hf.sublist ((List.filter_sublist f).map _)
  · intro a ha hmem
    obtain ⟨r, hrf, hurl⟩ := List.mem_map.mp hmem
    have hfil := (List.mem_filter.mp hrf).2
    have hnot : r.url ∉ b.map (fun r => r.url) := of_decide_eq_true hfil
    exact hnot (hurl ▸ ha)

theorem pyRoundQ_intCast_div (a : Int) (b : Nat) (hb : 0 < b) :
    pyRoundQ ((a : ℚ) / (b : ℚ)) = roundHalfEvenDiv a (b : Int) := by
  have hb0 : (0 : ℚ) < (b : ℚ) := by exact_mod_cast hb
  have hfloor : ⌊(a : ℚ) / (b : ℚ)⌋ = a / (b : Int) := Rat.floor_intCast_div_natCast a b
  simp only [pyRoundQ, roundHalfEvenDiv]
  rw [hfloor]
  set q : Int := a / (b : Int) with hq
  set r : Int := a % (b : Int) with hrr
  have hdm : (b : Int) * q + r = a := Int.ediv_add_emod a (b : Int)
  have hcast : ((b : ℚ)) * ((q : Int) : ℚ) + ((r : Int) : ℚ) = (a : ℚ) := by
    exact_mod_cast hdm
  have hr : (a : ℚ) / (b : ℚ) - ((q : Int) : ℚ) = ((r : Int) : ℚ) / (b : ℚ) := by
    field_simp
    linarith
  have c1 : (((r : Int) : ℚ) / (b : ℚ) < 1 / 2) ↔ (2 * r < (b : Int)) := by
    rw [div_lt_div_iff₀ hb0 (by norm_num : (0 : ℚ) < 2), one_mul]
    constructor
    · intro h
      have h2 : ((2 * r : Int) : ℚ) < (((b : Int)) : ℚ) := by
        push_cast
        linarith
      exact_mod_cast h2
    · intro h
      have h2 : ((2 * r : Int) : ℚ) < (((b : Int)) : ℚ) := by exact_mod_cast h
      push_cast at h2
      linarith
  have c2 : ((1 : ℚ) / 2 < ((r : Int) : ℚ) / (b : ℚ)) ↔ ((b : Int) < 2 * r) := by
    rw [div_lt_div_iff₀ (by norm_num : (0 : ℚ) < 2) hb0, one_mul]
    constructor
    · intro h
      have h2 : (((b : Int)) : ℚ) < ((2 * r : Int) : ℚ) := by
        push_cast
        linarith
      exact_mod_cast h2
    · intro h
      have h2 : (((b : Int)) : ℚ) < ((2 * r : Int) : ℚ) := by exact_mod_cast h
      push_cast at h2
      linarith
  rw [hr]
  by_cases h1 : 2 * r < (b : Int)
  · rw [if_pos (c1.mpr h1), if_pos h1]
  · rw [if_neg (fun hx => h1 (c1.mp hx)), if_neg h1]
    by_cases h2 : (b : Int) < 2 * r
    · rw [if_pos (c2.mpr h2), if_pos h2]
    · rw [if_neg (fun hx => h2 (c2.mp hx)), if_neg h2]

theorem round2_zero : round2 0 = 0 := by
  have h0 : pyRoundQ 0 = 0 := by
    simp [pyRoundQ]
  have : (0 : ℚ) * 100 = 0 := by norm_num
  rw [round2, this, h0]
  norm_num

/-- C1 counterexample: for a source offering one record whose timestamp is
malformed and target 1, the loop halts with 0 records, not
`min(target, total available) = 1` — a record that fails derivation is
skipped, so the claimed exact count fails as stated. -/
theorem C1_counterexample :
    (fetch_top_repositories 0 (idealFetch [badRaw]) 1 2).map (fun r => r.1.length) = some 0
    ∧ min 1 (List.length [badRaw]) = 1 ∧ (0 : Nat) ≠ 1 := by
  decide

/-- C1 (amended): over a source whose records all derive successfully, the
collection loop halts with exactly `min(target, total available)` records;
and in every run (any fetch environment whatsoever) every reachable loop
state carries at most `target` accumulated records — a record is never
appended once the target is reached. -/
theorem C1_collection_halts_at_min (now : Int) (src : List RawRepository) (limit : Nat)
    (hv : AllValid src) :
    (fetch_top_repositories now (idealFetch src) limit (limit + 1)).map (fun r => r.1.length)
        = some (min limit src.length)
    ∧ ∀ (fetch : Nat → Option Nat → Nat → FetchResult) (s : LoopState),
        Reachable now fetch limit s → s.repositories.length ≤ limit := by
  constructor
  · exact fetch_top_ideal_length now src limit hv
  · intro fetch s h
    exact reachable_length_le now fetch limit s h

/-- C1 witness: a concrete all-valid source of 2 records with target 3
halts with `min 3 2 = 2` records. -/
theorem C1_witness :
    AllValid (mkSrc 2)
    ∧ (fetch_top_repositories 0 (idealFetch (mkSrc 2)) 3 (3 + 1)).map (fun r => r.1.length)
        = some (min 3 (mkSrc 2).length) :=
  ⟨mkSrc_allValid 2, (C1_collection_halts_at_min 0 (mkSrc 2) 3 (mkSrc_allValid 2)).1⟩

/-- C5 counterexample: on the spec's scenario (target 5, pages of size
2, 2, 1, then an empty page) the controller performs exactly 3 fetch
calls, not 4: the target is reached on the third page, so the loop breaks
before the empty page is ever requested. -/
theorem C5_counterexample :
    (fetch_top_repositories 0 scenFetch 5 10).map (fun r => (r.1.length, r.2)) = some (5, 3)
    ∧ ((5, 3) : Nat × Nat) ≠ (5, 4) := by
  decide

/-- C5 (amended): on the scenario source the controller performs exactly 3
fetch calls and stops with exactly 5 records; the empty page is never
requested.  (With a larger target 6 the fourth, empty page is requested
and ends the loop — end-of-stream — after 4 calls, still with 5 records,
even though the page claims `hasNextPage`.) -/
theorem C5_scenario_three_calls :
    (fetch_top_repositories 0 scenFetch 5 10).map (fun r => (r.1.length, r.2)) = some (5, 3)
    ∧ (fetch_top_repositories 0 scenFetch 6 10).map (fun r => (r.1.length, r.2)) = some (5, 4) := by
  decide

/-- C7 counterexample: on the even-length metric list `[1, 2, 3, 4]` the
report's median (`sorted[len // 2]`) is 3, the UPPER of the two central
elements, while the claim's lower-central median would be 2. -/
theorem C7_counterexample :
    reportMedianInt [1, 2, 3, 4] = 3 ∧ specLowerMedian [1, 2, 3, 4] = 2
    ∧ reportMedianInt [1, 2, 3, 4] ≠ specLowerMedian [1, 2, 3, 4] := by
  decide

/-- C7 (amended): for every non-empty metric list the reported median is
the single element of the sorted sequence at integer middle index
`len // 2` — for even lengths the UPPER of the two central elements — and
in particular it is always an element of the list, never an average of the
two central values. -/
theorem C7_median_is_upper_middle_element (xs : List Int) (h : xs ≠ []) :
    reportMedianInt xs ∈ xs
    ∧ reportMedianInt xs = (sortedInt xs).getD (xs.length / 2) 0 :=
  ⟨reportMedianInt_mem xs h, rfl⟩

/-- C7 witness: the even-length list `[1, 2, 3, 4]`. -/
theorem C7_witness :
    reportMedianInt [1, 2, 3, 4] ∈ ([1, 2, 3, 4] : List Int)
    ∧ reportMedianInt [1, 2, 3, 4] = (sortedInt [1, 2, 3, 4]).getD (List.length [1, 2, 3, 4] / 2) 0 :=
  C7_median_is_upper_middle_element [1, 2, 3, 4] (by decide)

/-- C8 counterexample: on a record set whose most-frequent age value is
tied, the printed report exists and no printed line contains the phrase
"no unique mode" (the script computes no mode at all). -/
theorem C8_counterexample :
    specHasUniqueMode (tiedModeRepos.map (fun r => r.age_days)) = false
    ∧ (print_detailed_stats tiedModeRepos).isSome = true
    ∧ ((print_detailed_stats tiedModeRepos).getD []).all
        (fun l => !(strContains l modeMarker)) = true := by
  decide

/-- C8 (amended): the summary report contains no mode statistic of any
kind: two record sets that differ only in whether the age frequency has a
unique maximiser (same median, extrema and counts) produce character-for-
character identical reports, so neither a mode nor "no unique mode" is
ever reported. -/
theorem C8_report_has_no_mode :
    specHasUniqueMode (uniqueModeRepos.map (fun r => r.age_days)) = true
    ∧ specHasUniqueMode (tiedModeRepos.map (fun r => r.age_days)) = false
    ∧ print_detailed_stats uniqueModeRepos = print_detailed_stats tiedModeRepos := by
  decide

/-- C10 counterexample: with a source that forever serves non-empty pages
whose single record fails derivation (no fetch ever raises), the first
iteration neither increases the accumulated count (still 0 records) nor
exits the loop, and 60 iterations of fuel are exhausted without the loop
terminating. -/
theorem C10_counterexample :
    fetchStep 0 allBadFetch 5 ⟨[], none, 0⟩ = StepResult.next ⟨[], some 1, 1⟩
    ∧ fetchLoop 0 allBadFetch 5 60 ⟨[], none, 0⟩ = none := by
  decide

/-- C10 (amended): if no fetch attempt raises and additionally every
record of every delivered page derives successfully, then every
non-exiting iteration strictly increases the accumulated record count,
and the loop terminates within `limit + 1` iterations. -/
theorem C10_loop_terminates_of_good (now : Int)
    (fetch : Nat → Option Nat → Nat → FetchResult) (limit : Nat) (hg : GoodFetch fetch) :
    (∀ s s' : LoopState, fetchStep now fetch limit s = StepResult.next s' →
        s.repositories.length < s'.repositories.length)
    ∧ (fetch_top_repositories now fetch limit (limit + 1)).isSome = true := by
  constructor
  · intro s s' hstep
    exact (fetchStep_next_of_good now fetch limit hg s s' hstep).1
  · exact fetchLoop_isSome_of_good now fetch limit hg (limit + 1) ⟨[], none, 0⟩
      (by simp) (by simp)

/-- C10 witness: the ideal single-record source with target 3 terminates
within 4 iterations. -/
theorem C10_witness :
    (fetch_top_repositories 0 (idealFetch (mkSrc 1)) 3 (3 + 1)).isSome = true :=
  (C10_loop_terminates_of_good 0 (idealFetch (mkSrc 1)) 3
    (goodFetch_idealFetch (mkSrc 1) (mkSrc_allValid 1))).2

/-- C3 counterexample: the merge only filters fetched records against the
baseline's urls — two fetched records sharing a url both survive, so with
a clean baseline and a fetched sequence containing an internal duplicate
the merged result has two records with the same url. -/
theorem C3_counterexample :
    NoDupUrls [mkDerived 1 ("b1")]
    ∧ ¬ NoDupUrls (mergeFetched [mkDerived 1 ("b1")] [mkDerived 2 ("a"), mkDerived 3 ("a")]) := by
  constructor
  · decide
  · decide

/-- C3 (amended): provided the baseline's urls are pairwise distinct and
the fetched sequence's urls are pairwise distinct, the merge equals the
baseline followed by exactly those fetched records whose url is not
already in the baseline (duplicates of the baseline are discarded), and
the merged result contains no two records with the same url. -/
theorem C3_merge_deduplicates (b f : List DerivedRecord)
    (hb : NoDupUrls b) (hf : NoDupUrls f) :
    NoDupUrls (mergeFetched b f)
    ∧ mergeFetched b f = b ++ f.filter (fun r => decide (r.url ∉ urlsOf b)) :=
  ⟨mergeFetched_nodup b f hb hf, mergeFetched_eq b f⟩

/-- C3 witness: a two-element baseline and a fetched pair overlapping it
on one url. -/
theorem C3_witness :
    NoDupUrls (mergeFetched [mkDerived 1 ("b1"), mkDerived 2 ("b2")]
        [mkDerived 3 ("b2"), mkDerived 4 ("c")])
    ∧ mergeFetched [mkDerived 1 ("b1"), mkDerived 2 ("b2")]
          [mkDerived 3 ("b2"), mkDerived 4 ("c")]
        = [mkDerived 1 ("b1"), mkDerived 2 ("b2")]
          ++ [mkDerived 3 ("b2"), mkDerived 4 ("c")].filter
            (fun r => decide (r.url ∉ urlsOf [mkDerived 1 ("b1"), mkDerived 2 ("b2")])) :=
  C3_merge_deduplicates [mkDerived 1 ("b1"), mkDerived 2 ("b2")]
    [mkDerived 3 ("b2"), mkDerived 4 ("c")] (by decide) (by decide)

/-- C6: for every raw record successfully derived, the stored
closed-issue percentage (an exact value in hundredths) equals 0 when
`total_issues = 0` and otherwise `round(100 * closed_issues /
total_issues, 2)` (Python round-half-to-even, to 2 decimal places). -/
theorem C6_closed_issues_percentage_eq (now : Int) (repo : RawRepository) (d : DerivedRecord)
    (h : process_repository_data now repo = some d) :
    (d.closed_issues_percentage : ℚ) / 100 =
      if repo.issues = 0 then 0
      else round2 (100 * (repo.closedIssues : ℚ) / (repo.issues : ℚ)) := by
  unfold process_repository_data at h
  cases hc : repo.createdAtDays with
  | none => rw [hc] at h; simp at h
  | some c0 =>
      cases hu : repo.updatedAtDays with
      | none => rw [hc, hu] at h; simp at h
      | some u0 =>
          rw [hc, hu] at h
          dsimp only at h
          cases h
          by_cases hz : repo.issues = 0
          · rw [if_pos hz]
            dsimp only
            rw [if_neg (by omega)]
            norm_num
          · rw [if_neg hz]
            have hpos : 0 < repo.issues := Nat.pos_of_ne_zero hz
            have hq0 : ((repo.issues : ℚ)) ≠ 0 := by
              exact_mod_cast hz
            dsimp only
            rw [if_pos hpos]
            rw [← pyRoundQ_intCast_div (10000 * (repo.closedIssues : Int)) repo.issues hpos]
            rw [round2]
            have harg : ((10000 * (repo.closedIssues : Int) : Int) : ℚ) / ((repo.issues : ℚ))
                = 100 * (repo.closedIssues : ℚ) / (repo.issues : ℚ) * 100 := by
              push_cast
              field_simp
              ring
            rw [harg]

/-- C6 witness: a record with 10 issues, all closed, derives a percentage
of 100.00 (10000 hundredths); the spec's end-to-end example. -/
theorem C6_witness :
    (pctDerived.closed_issues_percentage : ℚ) / 100 =
      if pctRaw.issues = 0 then 0
      else round2 (100 * (pctRaw.closedIssues : ℚ) / (pctRaw.issues : ℚ)) :=
  C6_closed_issues_percentage_eq 0 pctRaw pctDerived (by decide)

/-- C9: persisting writes the primary file and a timestamped backup with
the same header and rows; if the primary write fails, only the backup is
attempted (primary content untouched) and the outcome is reported; if the
backup also fails, the failure is reported and the whole prior durable
state is left untouched. -/
theorem C9_persist_with_backup (primaryOk backupOk : Bool) (ts filename : String)
    (repositories : List DerivedRecord) (fs : FileSys)
    (hbn : backupFilename filename ts ≠ filename) :
    (primaryOk = true → backupOk = true →
      readFile (save_to_csv_with_backup primaryOk backupOk ts filename repositories fs).1 filename
          = some ⟨fieldnames, repositories⟩
      ∧ readFile (save_to_csv_with_backup primaryOk backupOk ts filename repositories fs).1
          (backupFilename filename ts) = some ⟨fieldnames, repositories⟩)
    ∧ (primaryOk = false → backupOk = true →
      readFile (save_to_csv_with_backup primaryOk backupOk ts filename repositories fs).1 filename
          = readFile fs filename
      ∧ readFile (save_to_csv_with_backup primaryOk backupOk ts filename repositories fs).1
          (backupFilename filename ts) = some ⟨fieldnames, repositories⟩
      ∧ SaveMsg.errSave ∈ (save_to_csv_with_backup primaryOk backupOk ts filename repositories fs).2
      ∧ SaveMsg.savedBackupOnly (backupFilename filename ts)
          ∈ (save_to_csv_with_backup primaryOk backupOk ts filename repositories fs).2)
    ∧ (primaryOk = false → backupOk = false →
      (save_to_csv_with_backup primaryOk backupOk ts filename repositories fs).1 = fs
      ∧ SaveMsg.errSave ∈ (save_to_csv_with_backup primaryOk backupOk ts filename repositories fs).2
      ∧ SaveMsg.errCritical
          ∈ (save_to_csv_with_backup primaryOk backupOk ts filename repositories fs).2) := by
  refine ⟨?_, ?_, ?_⟩
  · intro hp hb
    subst hp
    subst hb
    simp [save_to_csv_with_backup, writeFile, readFile, hbn]
  · intro hp hb
    subst hp
    subst hb
    simp [save_to_csv_with_backup, writeFile, readFile, hbn]
  · intro hp hb
    subst hp
    subst hb
    simp [save_to_csv_with_backup]

/-- C9 witness: both writes failing on a concrete prior store leaves it
untouched and reports the failures. -/
theorem C9_witness :
    (save_to_csv_with_backup false false ("20240101") mainCsvFilename []
        [(mainCsvFilename, (⟨fieldnames, [mkDerived 1 ("p")]⟩ : CsvFile))]).1
      = [(mainCsvFilename, (⟨fieldnames, [mkDerived 1 ("p")]⟩ : CsvFile))]
    ∧ SaveMsg.errSave ∈ (save_to_csv_with_backup false false ("20240101") mainCsvFilename []
        [(mainCsvFilename, (⟨fieldnames, [mkDerived 1 ("p")]⟩ : CsvFile))]).2
    ∧ SaveMsg.errCritical ∈ (save_to_csv_with_backup false false ("20240101") mainCsvFilename []
        [(mainCsvFilename, (⟨fieldnames, [mkDerived 1 ("p")]⟩ : CsvFile))]).2 :=
  (C9_persist_with_backup false false ("20240101") mainCsvFilename []
    [(mainCsvFilename, (⟨fieldnames, [mkDerived 1 ("p")]⟩ : CsvFile))] (by decide)).2.2 rfl rfl

/-- C2 counterexample: resuming from a baseline of size 1 (so T - S = 999
with the script's resume target 1000) against an ideal source of 1000
records fetches 1000 fresh records — `fetch_top_repositories(target)` is
called with the full target, not the shortfall. -/
theorem C2_counterexample :
    (mainRun [mkDerived 1 ("b")] true 0 (idealFetch (mkSrc 1000)) true true ("t") 1001 []).map
        (fun o => o.fetchedCount) = some (some 1000)
    ∧ 1000 - List.length [mkDerived 1 ("b")] < 1000 := by
  constructor
  · have h := mainRun_resume_fetched [mkDerived 1 ("b")] (mkSrc 1000) 0 true true ("t") []
      (by decide) (by decide) (mkSrc_allValid 1000)
    have hlen : (mkSrc 1000).length = 1000 := by simp [mkSrc]
    rw [hlen] at h
    simpa using h
  · decide

/-- C2 (amended): when the baseline already holds at least the resume
target (S ≥ 1000) nothing is fetched; but when 0 < S < 1000 the
controller re-fetches up to the FULL target — exactly
`min(1000, available)` records for an ideal all-valid source, which can
exceed T - S — and relies on the url-deduplicating merge instead. -/
theorem C2_resume_fetches_full_target (existing : List DerivedRecord)
    (src : List RawRepository) (now : Int) (primaryOk backupOk : Bool)
    (ts : String) (fs0 : FileSys) :
    (∀ (fetch : Nat → Option Nat → Nat → FetchResult) (fuel : Nat),
        1000 ≤ existing.length →
        (mainRun existing true now fetch primaryOk backupOk ts fuel fs0).map
            (fun o => o.fetchedCount) = some none)
    ∧ (existing ≠ [] → existing.length < 1000 → AllValid src →
        (mainRun existing true now (idealFetch src) primaryOk backupOk ts 1001 fs0).map
            (fun o => o.fetchedCount) = some (some (min 1000 src.length))) := by
  constructor
  · intro fetch fuel h
    have hne' : existing.isEmpty = false := by
      cases existing with
      | nil => simp at h
      | cons a l => simp
    unfold mainRun
    rw [hne']
    simp [h]
  · intro hne hlt hv
    exact mainRun_resume_fetched existing src now primaryOk backupOk ts fs0 hne hlt hv

/-- C2 witness: a one-record baseline resumed against a one-record ideal
source fetches `min 1000 1 = 1` record. -/
theorem C2_witness :
    (mainRun [mkDerived 1 ("w")] true 0 (idealFetch (mkSrc 1)) true true ("t") 1001 []).map
        (fun o => o.fetchedCount) = some (some (min 1000 (mkSrc 1).length)) :=
  (C2_resume_fetches_full_target [mkDerived 1 ("w")] (mkSrc 1) 0 true true ("t") []).2
    (by decide) (by decide) (mkSrc_allValid 1)

/-- C4 counterexample: with a prior durable primary file in place, a
first-page TransportError run still rewrites the primary output (now
header-only, the prior rows gone) and the process outcome is exit code 0,
refuting both "no output file changes" and "non-zero outcome". -/
theorem C4_counterexample :
    (mainRun [] true 0 excFetch true true ("t") 101
        [(mainCsvFilename, (⟨fieldnames, [mkDerived 1 ("p")]⟩ : CsvFile))]).map
        (fun o => (o.exitCode, readFile o.fs mainCsvFilename))
      = some (0, some (⟨fieldnames, []⟩ : CsvFile))
    ∧ readFile [(mainCsvFilename, (⟨fieldnames, [mkDerived 1 ("p")]⟩ : CsvFile))] mainCsvFilename
      = some (⟨fieldnames, [mkDerived 1 ("p")]⟩ : CsvFile)
    ∧ (⟨fieldnames, ([] : List DerivedRecord)⟩ : CsvFile) ≠ ⟨fieldnames, [mkDerived 1 ("p")]⟩ := by
  refine ⟨by decide, by decide, by decide⟩

/-- C4 (amended): a TransportError on the very first page makes the fetch
loop return after exactly that one call with zero records, and `main`
then still writes the primary output file (header and no rows, replacing
any prior content) and finishes with exit code 0; a TransportError on a
later page is non-fatal — the loop issues the next call with the last
good cursor and keeps collecting (here: 2 records over 3 calls with call
2 failing). -/
theorem C4_first_page_transport_behaviour (now : Int)
    (fetch : Nat → Option Nat → Nat → FetchResult) (ts : String) (fs0 : FileSys) (fuel : Nat)
    (h1 : fetch 1 none 100 = FetchResult.exc) (hf : 1 ≤ fuel)
    (hbn : backupFilename mainCsvFilename ts ≠ mainCsvFilename) :
    (mainRun [] true now fetch true true ts fuel fs0).map
        (fun o => (o.repositories, o.exitCode, readFile o.fs mainCsvFilename))
      = some ([], 0, some (⟨fieldnames, []⟩ : CsvFile))
    ∧ (fetch_top_repositories 0 laterExcFetch 5 10).map (fun r => (r.1.length, r.2))
      = some (2, 3) := by
  constructor
  · have hloop : fetch_top_repositories now fetch 100 fuel = some ([], 1) := by
      cases fuel with
      | zero => omega
      | succ m =>
          rw [fetch_top_repositories, fetchLoop]
          have hstep : fetchStep now fetch 100 ⟨[], none, 0⟩ = StepResult.halt [] 1 := by
            simp [fetchStep, h1]
          rw [hstep]
    unfold mainRun
    simp [hloop, mergeFetched, save_to_csv_with_backup, writeFile, readFile, hbn]
  · decide

/-- C4 witness: the always-failing fetch environment with fuel 5 over an
empty prior store. -/
theorem C4_witness :
    (mainRun [] true 0 excFetch true true ("t") 5 []).map
        (fun o => (o.repositories, o.exitCode, readFile o.fs mainCsvFilename))
      = some ([], 0, some (⟨fieldnames, []⟩ : CsvFile)) :=
  (C4_first_page_transport_behaviour 0 excFetch ("t") [] 5 rfl (by decide) (by decide)).1
